import Mathlib

/-!
Verification of the occurrence algebra for XML-Schema content particles
(`xmlschema/validators/particles.py`): a shallow embedding of
`ParticleMixin` and `ModelGroup` together with theorems about the
occurrence-range contract, pointless-group detection, effective occurs,
restriction checking and ancestor-chain resolution.
-/

namespace XsdParticles

/-- Composition kind of an XSD model group: the `model` attribute of
`ModelGroup.__init__`, which raises `XMLSchemaValueError` unless the value is
one of the strings `sequence`, `choice`, `all`; an inductive type with
exactly those three constructors models the membership check. -/
inductive ModelKind where
  | sequence
  | choice
  | all
deriving DecidableEq

/-- A particle tree: a `leaf` is an opaque leaf particle (element
declaration or wildcard, a bare `ParticleMixin`), a `group` is a
`ModelGroup` with its ordered `children` (the `_group` list).
`minOcc : Nat` models the non-negative `min_occurs : int` of the data model;
`maxOcc : Option Nat` models `max_occurs : Optional[int]`, where `none` is
the Python `None` (unbounded).  `pid` models Python object identity:
distinct objects of a tree carry distinct ids, and the `child is item`
comparison of `get_subgroups` is id equality. -/
inductive Particle where
  | leaf (pid : Nat) (minOcc : Nat) (maxOcc : Option Nat)
  | group (pid : Nat) (model : ModelKind) (minOcc : Nat) (maxOcc : Option Nat)
      (children : List Particle)

/-- Object identity of a particle (see `Particle`). -/
def Particle.pid : Particle → Nat
  | .leaf i _ _ => i
  | .group i _ _ _ _ => i

/-- The `min_occurs` attribute of a particle. -/
def Particle.minOccurs : Particle → Nat
  | .leaf _ mn _ => mn
  | .group _ _ mn _ _ => mn

/-- The `max_occurs` attribute of a particle (`none` = unbounded). -/
def Particle.maxOccurs : Particle → Option Nat
  | .leaf _ _ mx => mx
  | .group _ _ _ mx _ => mx

/-! ## Construction: `ParticleMixin.__init__` and `ParticleMixin._parse_particle`

`__init__` stores `min_occurs`/`max_occurs` unchecked; validation happens in
`_parse_particle`, the bounded mutation step that reads the two source
attributes.  In `ParticleMixin` itself `parse_error` raises
`XMLSchemaValueError`, so every `parse_error` call below aborts parsing; in
particular the legacy clamp `self.max_occurs = None` placed after the last
`parse_error` is unreachable from this class and is not part of the result. -/

/-- Step one of `_parse_particle`: the `minOccurs` attribute.  `min0` is the
current `self.min_occurs` (set by `__init__`); `minAttr` is `none` when the
attribute is absent, otherwise its integer value (a non-integer attribute
string also ends in `parse_error` and is subsumed by the error result). -/
def parseMinOccurs (min0 : Int) (minAttr : Option Int) : Except String Int :=
  match minAttr with
  | none => .ok min0
  | some m =>
    if m < 0 then .error "minOccurs value must be a non negative integer"
    else .ok m

/-- `ParticleMixin._parse_particle`, acting on the state `(min0, max0)` left
by `__init__`.  `maxAttr` models `elem.get(maxOccurs)`: `none` when the
attribute is absent, `some none` for the literal string `unbounded`,
`some (some n)` for an integer-valued attribute. -/
def parseParticle (min0 : Int) (max0 : Option Int)
    (minAttr : Option Int) (maxAttr : Option (Option Int)) :
    Except String (Int × Option Int) :=
  match parseMinOccurs min0 minAttr with
  | .error e => .error e
  | .ok mn =>
    match maxAttr with
    | none =>
      if mn > 1 then .error "minOccurs must be lesser or equal than maxOccurs"
      else .ok (mn, max0)
    | some none => .ok (mn, none)
    | some (some mx) =>
      if mn > mx then
        .error "maxOccurs must be unbounded or greater than minOccurs"
      else .ok (mn, some mx)

/-- Constructing a particle with occurrence range `(mn, mx)`:
`ParticleMixin()` with its defaults `(1, 1)` followed by `_parse_particle`
on an element carrying both attributes, `maxOccurs` being the literal
`unbounded` when `mx = none`. -/
def mkParticle (mn : Int) (mx : Option Int) : Except String (Int × Option Int) :=
  parseParticle 1 (some 1) (some mn) (some mx)

/-- Whether parsing succeeded. -/
def parseSucceeds : Except String (Int × Option Int) → Bool
  | .ok _ => true
  | .error _ => false

/-! ## `ModelGroup.is_pointless` -/

/-- `ModelGroup.is_pointless(parent)`.  The parent is consulted only through
`parent.model`, so the parameter is the parent model kind.  The source calls
this only on `ModelGroup` instances (guarded by `isinstance`); the `leaf`
case is unreachable there and returns `false`. -/
def isPointless (g : Particle) (parentModel : ModelKind) : Bool :=
  match g with
  | .leaf _ _ _ => false
  | .group _ m mn mx cs =>
    if cs.isEmpty then true
    else if mn ≠ 1 ∨ mx ≠ some 1 then false
    else if cs.length = 1 then true
    else if m = .sequence ∧ parentModel ≠ .sequence then false
    else if m = .choice ∧ parentModel ≠ .choice then false
    else true

/-! ## `has_occurs_restriction`

`ParticleMixin.has_occurs_restriction` compares the two declared ranges;
`ModelGroup.has_occurs_restriction` defers to it when `other` is a group,
and otherwise folds the direct children (`for e in self`) into an
equivalent range.  The Python `max()` / `sum()` over child maxima can hit a
`TypeError` when a value is `None`; `pyMax` and `pySum` model those builtin
calls exactly (an `.error` result is the raised `TypeError`). -/

/-- Python `min` over a list of ints; the empty case raises `ValueError` in
Python and is unreachable at every call site (the group is non-empty). -/
def minList : List Nat → Nat
  | [] => 0
  | x :: xs => xs.foldl Nat.min x

/-- Python `max` over a list of ints (same remark on the empty case). -/
def maxList : List Nat → Nat
  | [] => 0
  | x :: xs => xs.foldl Nat.max x

/-- Python `max` over possibly-`None` values: with two or more elements any
`None` raises `TypeError` (`.error`); a single element is returned without
any comparison, even when it is `None`. -/
def pyMax (l : List (Option Nat)) : Except Unit (Option Nat) :=
  match l with
  | [] => .error ()
  | [x] => .ok x
  | x :: y :: rest =>
    if (x :: y :: rest).any (fun v => v = none) then .error ()
    else .ok (some (maxList ((x :: y :: rest).map (fun v => v.getD 0))))

/-- Python `sum` over possibly-`None` values: the running total starts at
`0`, so any `None` raises `TypeError` (`.error`). -/
def pySum (l : List (Option Nat)) : Except Unit Nat :=
  if l.any (fun v => v = none) then .error ()
  else .ok ((l.map (fun v => v.getD 0)).sum)

/-- `ParticleMixin.has_occurs_restriction`, on the two declared ranges. -/
def occursRestriction (smin : Nat) (smax : Option Nat)
    (omin : Nat) (omax : Option Nat) : Bool :=
  if smin < omin then false
  else if smax = some 0 then true
  else
    match omax with
    | none => true
    | some ob =>
      match smax with
      | none => false
      | some sb => decide (sb ≤ ob)

/-- `has_occurs_restriction`, dispatched as Python does: the leaf method for
a leaf receiver, the `ModelGroup` override for a group receiver.  In the
group-versus-leaf branch the two `except TypeError: return False` fallbacks
appear as the `.error` cases of `pyMax` / `pySum`.  The `.ok none` case of
`pyMax` would make the Python multiplication `self.max_occurs * value` raise
an uncaught `TypeError`; it and the `smax = none` cases inside the finite
branch are unreachable because the guard on line 297 has already diverted
any unbounded `max_occurs` (the theorem for claim C8), and are mapped to
`false`. -/
def hasOccursRestriction (p other : Particle) : Bool :=
  match p with
  | .leaf _ smin smax =>
    occursRestriction smin smax other.minOccurs other.maxOccurs
  | .group _ m smin smax cs =>
    if cs.isEmpty then true
    else
      match other with
      | .group _ _ omin omax _ => occursRestriction smin smax omin omax
      | .leaf _ omin omax =>
        if smax = none ∨ cs.any (fun e => Particle.maxOccurs e = none) then
          match omax with
          | some _ => false
          | none =>
            if m = .choice then
              decide (omin ≤ smin * minList (cs.map Particle.minOccurs))
            else
              decide (omin ≤ smin * (cs.map Particle.minOccurs).sum)
        else if m = .choice then
          if smin * minList (cs.map Particle.minOccurs) < omin then false
          else
            match omax with
            | none => true
            | some ob =>
              match pyMax (cs.map Particle.maxOccurs) with
              | .error _ => false
              | .ok none => false
              | .ok (some v) =>
                match smax with
                | none => false
                | some sb => decide (sb * v ≤ ob)
        else
          if smin * (cs.map Particle.minOccurs).sum < omin then false
          else
            match omax with
            | none => true
            | some ob =>
              match pySum (cs.map Particle.maxOccurs) with
              | .error _ => false
              | .ok v =>
                match smax with
                | none => false
                | some sb => decide (sb * v ≤ ob)

/-! ## Effective occurs

`effective_min_occurs` / `effective_max_occurs` consult the children through
`iter_model()`, the traversal that replaces every child group found pointless
(relative to the iterated group) by that group's own iterated items.
`iter_model` threads a depth counter and raises `XMLSchemaModelDepthError`
past `limits.MAX_MODEL_DEPTH`; on the finite trees of this embedding the
traversal is total and the guard can only turn the computation on a
pathologically deep pointless-group chain into an exception — it never
changes a returned value — so it is omitted from `effMins` / `effPairs`,
which inline `[f(e) for e in self.iter_model()]` for the two properties. -/

mutual

/-- `ModelGroup.effective_min_occurs`. -/
def effectiveMinOccurs : Particle → Nat
  | .leaf _ mn _ => mn
  | .group _ m mn _ cs =>
    if mn = 0 ∨ cs.isEmpty then 0
    else if m = .choice then
      if (effMins m cs).any (fun v => v = 0) then 0 else mn
    else
      if (effMins m cs).all (fun v => v = 0) then 0 else mn

/-- `[e.effective_min_occurs for e in self.iter_model()]` for a group with
model `pm` and children `cs`, the pointless-group flattening inlined. -/
def effMins : ModelKind → List Particle → List Nat
  | _, [] => []
  | pm, c :: rest =>
    match c with
    | .group ci cm cmn cmx ccs =>
      if isPointless (.group ci cm cmn cmx ccs) pm then
        effMins cm ccs ++ effMins pm rest
      else
        effectiveMinOccurs (.group ci cm cmn cmx ccs) :: effMins pm rest
    | .leaf ci cmn cmx =>
      effectiveMinOccurs (.leaf ci cmn cmx) :: effMins pm rest

end

mutual

/-- `ModelGroup.effective_max_occurs`.  The `pyMax` error case is the
`except TypeError: return None` fallback; the `.ok none` case (a single
effective item with unbounded effective max) would make the Python
multiplication `self.max_occurs * value` raise an uncaught `TypeError` and
is mapped to `none`, the value the surrounding arithmetic intends for an
unbounded contribution. -/
def effectiveMaxOccurs : Particle → Option Nat
  | .leaf _ _ mx => mx
  | .group _ m _ mx cs =>
    if mx = some 0 ∨ cs.isEmpty then some 0
    else
      let ei := (effPairs m cs).filter (fun pr => pr.2 ≠ some 0)
      if ei.isEmpty then some 0
      else
        match mx with
        | none => none
        | some mb =>
          if m = .choice then
            match pyMax (ei.map Prod.snd) with
            | .error _ => none
            | .ok none => none
            | .ok (some v) => some (mb * v)
          else
            let ne := ei.filter (fun pr => effectiveMinOccurs pr.1 ≠ 0)
            if ne.isEmpty then
              match pyMax (ei.map Prod.snd) with
              | .error _ => none
              | .ok none => none
              | .ok (some v) => some (mb * v)
            else if 1 < ne.length then some mb
            else
              match ne with
              | [] => some 0
              | pr :: _ =>
                match pr.2 with
                | none => none
                | some v => some (mb * v)

/-- `[(e, e.effective_max_occurs) for e in self.iter_model()]` for a group
with model `pm` and children `cs`, the pointless-group flattening inlined. -/
def effPairs : ModelKind → List Particle → List (Particle × Option Nat)
  | _, [] => []
  | pm, c :: rest =>
    match c with
    | .group ci cm cmn cmx ccs =>
      if isPointless (.group ci cm cmn cmx ccs) pm then
        effPairs cm ccs ++ effPairs pm rest
      else
        (Particle.group ci cm cmn cmx ccs,
          effectiveMaxOccurs (.group ci cm cmn cmx ccs)) :: effPairs pm rest
    | .leaf ci cmn cmx =>
      (Particle.leaf ci cmn cmx,
        effectiveMaxOccurs (.leaf ci cmn cmx)) :: effPairs pm rest

end

/-! ## Ancestor-chain resolution: `get_subgroups` and `overall_min_occurs` -/

/-- Modelled from the spec: the configured maximum traversal depth
`limits.MAX_MODEL_DEPTH`.  The module `xmlschema/limits.py` is not part of
this source tree; the spec describes it as a single process-wide tunable,
and the theorems below do not depend on its numeric value. -/
def MAX_MODEL_DEPTH : Nat := 15

/-- Errors of `get_subgroups`: `XMLSchemaModelError` (the particle is not a
particle of the model group) and `XMLSchemaModelDepthError`. -/
inductive ModelError where
  | notInGroup
  | depthExceeded
deriving DecidableEq

/-- Outcome of the iterative walk inside `get_subgroups`. -/
inductive SearchOutcome where
  | found (chain : List Particle)
  | notFound
  | depthExceeded

/-- The `while True` walk of `get_subgroups` with its explicit stack of
`(group, remaining-children)` frames, written as recursion over the
remaining children `cs` of the current group `g`; `anc` is the stack
content, the ancestor groups of `g` outermost first (so `anc.length` is
Python `len(subgroups)`).  As in the source, a child equal (by identity) to
the target is recognised before the group/depth test, the depth test
`len(subgroups) > MAX_MODEL_DEPTH` precedes descending into a child group,
and an exhausted child resumes with the parent frame. -/
def findInList : Nat → List Particle → Particle → List Particle → SearchOutcome
  | _, _, _, [] => .notFound
  | tid, anc, g, c :: rest =>
    if Particle.pid c = tid then .found (anc ++ [g])
    else
      match c with
      | .leaf _ _ _ => findInList tid anc g rest
      | .group ci cm cmn cmx ccs =>
        if MAX_MODEL_DEPTH < anc.length then .depthExceeded
        else
          match findInList tid (anc ++ [g]) (.group ci cm cmn cmx ccs) ccs with
          | .notFound => findInList tid anc g rest
          | r => r

/-- `ModelGroup.get_subgroups(item)`, the item given by its identity `tid`.
The receiver is always a `ModelGroup`; a leaf receiver has no children to
walk and fails with the membership error like an exhausted empty group. -/
def getSubgroups (root : Particle) (tid : Nat) : Except ModelError (List Particle) :=
  match root with
  | .leaf _ _ _ => .error .notInGroup
  | .group i m mn mx cs =>
    match findInList tid [] (.group i m mn mx cs) cs with
    | .found chain => .ok chain
    | .notFound => .error .notInGroup
    | .depthExceeded => .error .depthExceeded

/-- Whether a group is a `choice` with more than one child (the
short-circuit test of `overall_min_occurs`). -/
def isMultiChoice : Particle → Bool
  | .group _ .choice _ _ cs => decide (1 < cs.length)
  | _ => false

/-- The `for group in self.get_subgroups(item)` loop of
`overall_min_occurs`: returns `0` as soon as an ancestor is a multi-child
choice, otherwise multiplies the accumulator by the ancestor minima. -/
def chainMin : Nat → List Particle → Nat
  | acc, [] => acc
  | acc, g :: rest =>
    if isMultiChoice g then 0 else chainMin (acc * g.minOccurs) rest

/-- `ModelGroup.overall_min_occurs(item)`; the `get_subgroups` errors
propagate to the caller. -/
def overallMinOccurs (root item : Particle) : Except ModelError Nat :=
  match getSubgroups root item.pid with
  | .error e => .error e
  | .ok chain => .ok (chainMin item.minOccurs chain)

/-! ## Structural measures used to state the membership claims -/

mutual

/-- Every node strictly below a particle, in the order `get_subgroups`
visits children. -/
def subparticles : Particle → List Particle
  | .leaf _ _ _ => []
  | .group _ _ _ _ cs => subparticlesList cs

/-- `subparticles` over a child list. -/
def subparticlesList : List Particle → List Particle
  | [] => []
  | c :: rest => c :: (subparticles c ++ subparticlesList rest)

end

mutual

/-- Group-nesting depth of a tree: a leaf contributes nothing, a group one
level above its children. -/
def gdepth : Particle → Nat
  | .leaf _ _ _ => 0
  | .group _ _ _ _ cs => 1 + gdepthList cs

/-- `gdepth` over a child list. -/
def gdepthList : List Particle → Nat
  | [] => 0
  | c :: rest => Nat.max (gdepth c) (gdepthList rest)

end

mutual

/-- Structural content of a particle: the tree with every object identity
erased.  Two distinct Python objects are structurally equal exactly when
their erasures coincide. -/
def erase : Particle → Particle
  | .leaf _ mn mx => .leaf 0 mn mx
  | .group _ m mn mx cs => .group 0 m mn mx (eraseList cs)

/-- `erase` over a child list. -/
def eraseList : List Particle → List Particle
  | [] => []
  | c :: rest => erase c :: eraseList rest

end


/-! ## Theorems -/

/-! ## Helper lemmas -/

lemma occursRestriction_refl (mn : Nat) (mx : Option Nat) :
    occursRestriction mn mx mn mx = true := by
  unfold occursRestriction
  cases mx with
  | none => simp
  | some b => by_cases hb : b = 0 <;> simp [hb]

lemma pyMax_of_all_some (l : List (Option Nat)) (h0 : l ≠ [])
    (h : ∀ v ∈ l, v ≠ none) :
    pyMax l = .ok (some (maxList (l.map (fun v => v.getD 0)))) := by
  match l with
  | [] => exact absurd rfl h0
  | [x] =>
    obtain ⟨a, rfl⟩ := Option.ne_none_iff_exists'.mp (h x (by simp))
    simp [pyMax, maxList]
  | x :: y :: rest =>
    have hany : ((x :: y :: rest).any (fun v => v = none)) = false := by
      simp only [List.any_eq_false, decide_eq_true_eq]
      intro v hv
      exact h v hv
    simp [pyMax, hany]

lemma pySum_of_all_some (l : List (Option Nat)) (h : ∀ v ∈ l, v ≠ none) :
    pySum l = .ok ((l.map (fun v => v.getD 0)).sum) := by
  have hany : (l.any (fun v => v = none)) = false := by
    simp only [List.any_eq_false, decide_eq_true_eq]
    intro v hv
    exact h v hv
  simp [pySum, hany]

/-- Claim C1: constructing a particle with occurrence range `(mn, mx)`
succeeds iff `0 ≤ mn ∧ mn ≤ M` when `mx = some M`, and iff `0 ≤ mn` when
`mx` is absent (unbounded); in particular `mn > M` is rejected at
construction time. -/
theorem c1_construction_validates_range (mn M : Int) :
    (parseSucceeds (mkParticle mn (some M)) = true ↔ 0 ≤ mn ∧ mn ≤ M) ∧
    (parseSucceeds (mkParticle mn none) = true ↔ 0 ≤ mn) := by
  constructor
  · unfold mkParticle parseParticle parseMinOccurs
    by_cases h1 : mn < 0
    · simp [h1, parseSucceeds] <;> omega
    · simp only [h1, if_false]
      by_cases h2 : mn > M <;> simp [h2, parseSucceeds] <;> omega
  · unfold mkParticle parseParticle parseMinOccurs
    by_cases h1 : mn < 0 <;> simp [h1, parseSucceeds] <;> omega

theorem c1_witness :
    parseSucceeds (mkParticle 3 (some 5)) = true :=
  (c1_construction_validates_range 3 5).1.mpr (by decide)

/-- Claim C3, counterexample: an `all` group with `min_occurs = 1`,
`max_occurs = 1` and two children is reported pointless (for a `sequence`
parent here), where the claim says `is_pointless` returns `false` for every
parent. -/
theorem c3_counterexample :
    isPointless
      (.group 0 .all 1 (some 1) [.leaf 1 1 (some 1), .leaf 2 1 (some 1)])
      .sequence = true := by decide

/-- Claim C3, amended: a non-empty `all` group with
`min_occurs = max_occurs = 1` and two or more children is pointless for
every parent kind — the kind rule only blocks a `sequence` group under a
non-`sequence` parent and a `choice` group under a non-`choice` parent, and
an `all` group falls through to the final `return True`. -/
theorem c3_all_group_pointless (i : Nat) (cs : List Particle) (pm : ModelKind)
    (h : 2 ≤ cs.length) :
    isPointless (.group i .all 1 (some 1) cs) pm = true := by
  match cs with
  | [] => simp at h
  | [a] => simp at h
  | a :: b :: t => simp [isPointless]

theorem c3_witness :
    isPointless
      (.group 7 .all 1 (some 1) [.leaf 8 0 (some 2), .leaf 9 1 none])
      .choice = true :=
  c3_all_group_pointless 7 [.leaf 8 0 (some 2), .leaf 9 1 none] .choice (by simp)

/-- Claim C7: `has_occurs_restriction` is reflexive — every particle, leaf
or group (empty groups and unbounded maxima included), restricts itself. -/
theorem c7_hasOccursRestriction_refl (p : Particle) :
    hasOccursRestriction p p = true := by
  cases p with
  | leaf i mn mx =>
    simp [hasOccursRestriction, Particle.minOccurs, Particle.maxOccurs,
      occursRestriction_refl]
  | group i m mn mx cs =>
    by_cases h : cs.isEmpty <;>
      simp [hasOccursRestriction, h, occursRestriction_refl]

/-- Claim C8: in the group-versus-leaf branch of
`ModelGroup.has_occurs_restriction`, once the guard has excluded an
unbounded `max_occurs` on the group or any child, the `max()` and `sum()`
over child maxima can neither raise `TypeError` (the `.error` fallbacks)
nor produce an unbounded value: both return finite values. -/
theorem c8_typeerror_fallback_unreachable (cs : List Particle)
    (h0 : cs ≠ []) (hfin : ∀ e ∈ cs, Particle.maxOccurs e ≠ none) :
    (∃ v, pyMax (cs.map Particle.maxOccurs) = .ok (some v)) ∧
    (∃ v, pySum (cs.map Particle.maxOccurs) = .ok v) := by
  have hl : ∀ v ∈ cs.map Particle.maxOccurs, v ≠ none := by
    intro v hv
    obtain ⟨e, he, rfl⟩ := List.mem_map.mp hv
    exact hfin e he
  have hne : cs.map Particle.maxOccurs ≠ [] := by
    simpa using h0
  exact ⟨⟨_, pyMax_of_all_some _ hne hl⟩, ⟨_, pySum_of_all_some _ hl⟩⟩

theorem c8_witness :
    (∃ v, pyMax ([Particle.leaf 0 1 (some 2), Particle.leaf 1 0 (some 5)].map
      Particle.maxOccurs) = .ok (some v)) ∧
    (∃ v, pySum ([Particle.leaf 0 1 (some 2), Particle.leaf 1 0 (some 5)].map
      Particle.maxOccurs) = .ok v) :=
  c8_typeerror_fallback_unreachable _ (by simp)
    (by
      intro e he
      simp only [List.mem_cons, List.not_mem_nil, or_false] at he
      rcases he with rfl | rfl <;> simp [Particle.maxOccurs])

/-- Claim C2, counterexample: a `choice` group with occurs `(1, 2)` and one
child `(1, 1)`, compared against a leaf with occurs `(1, 1)`.  The minimum
contribution `1 * 1 ≥ 1` holds and the claim formula
`min_occurs * max(child maxima) = 1 * 1 ≤ 1` is satisfied, yet the code
returns `false`: line 317 multiplies by the group `max_occurs` (`2`), not
its `min_occurs`. -/
theorem c2_counterexample :
    ¬ (hasOccursRestriction
          (.group 0 .choice 1 (some 2) [.leaf 1 1 (some 1)])
          (.leaf 9 1 (some 1)) = true ↔
        Particle.minOccurs (.group 0 .choice 1 (some 2) [.leaf 1 1 (some 1)]) *
          maxList ([Particle.leaf 1 1 (some 1)].map
            (fun e => (Particle.maxOccurs e).getD 0)) ≤ 1) := by
  decide

/-- Claim C2, amended: for a non-empty group with finite `max_occurs` whose
children all have finite `max_occurs`, compared against a leaf with finite
`max_occurs`, when the minimum-contribution inequality holds the result is
`true` iff `max_occurs * max(child max_occurs) ≤ leaf.max_occurs` for a
choice group and iff `max_occurs * sum(child max_occurs) ≤ leaf.max_occurs`
for a sequence/all group — the scaling factor is the group `max_occurs`,
not its `min_occurs`. -/
theorem c2_max_contribution (i oi : Nat) (m : ModelKind)
    (mn mb omn ob : Nat) (cs : List Particle)
    (hne : cs ≠ [])
    (hfin : ∀ e ∈ cs, Particle.maxOccurs e ≠ none)
    (hmin : if m = .choice then omn ≤ mn * minList (cs.map Particle.minOccurs)
            else omn ≤ mn * (cs.map Particle.minOccurs).sum) :
    hasOccursRestriction (.group i m mn (some mb) cs) (.leaf oi omn (some ob)) =
      (if m = .choice then
        decide (mb * maxList ((cs.map Particle.maxOccurs).map (fun v => v.getD 0)) ≤ ob)
       else
        decide (mb * ((cs.map Particle.maxOccurs).map (fun v => v.getD 0)).sum ≤ ob)) := by
  have hisEmpty : cs.isEmpty = false := by
    cases cs with
    | nil => exact absurd rfl hne
    | cons a t => rfl
  have hany : (cs.any fun e => Particle.maxOccurs e = none) = false := by
    simp only [List.any_eq_false, decide_eq_true_eq]
    intro e he
    exact hfin e he
  have hl : ∀ v ∈ cs.map Particle.maxOccurs, v ≠ none := by
    intro v hv
    obtain ⟨e, he, rfl⟩ := List.mem_map.mp hv
    exact hfin e he
  have hnem : cs.map Particle.maxOccurs ≠ [] := by simpa using hne
  by_cases hm : m = .choice
  · subst hm
    simp only [if_pos rfl] at hmin ⊢
    simp [hasOccursRestriction, hisEmpty, hany,
      pyMax_of_all_some _ hnem hl, Nat.not_lt.mpr hmin]
  · simp only [if_neg hm] at hmin ⊢
    simp [hasOccursRestriction, hisEmpty, hany, hm,
      pySum_of_all_some _ hl, Nat.not_lt.mpr hmin]

theorem c2_witness :
    hasOccursRestriction
      (.group 0 .sequence 1 (some 2) [.leaf 1 1 (some 2), .leaf 2 1 (some 3)])
      (.leaf 9 2 (some 10)) = true := by
  have h := c2_max_contribution 0 9 .sequence 1 2 2 10
    [.leaf 1 1 (some 2), .leaf 2 1 (some 3)]
    (by simp)
    (by
      intro e he
      simp only [List.mem_cons, List.not_mem_nil, or_false] at he
      rcases he with rfl | rfl <;> simp [Particle.maxOccurs])
    (by simp [Particle.minOccurs, minList])
  simpa using h

lemma isEmpty_false_of_length_pos {α : Type} {l : List α} (h : 0 < l.length) :
    l.isEmpty = false := by
  cases l with
  | nil => simp at h
  | cons a t => rfl

/-- Claim C10: folding nested structure never raises the minimum — every
particle has `effective_min_occurs ≤ min_occurs`, the value is always
either `0` or the particle `min_occurs` itself, and for a leaf it equals
`min_occurs`. -/
theorem c10_effective_min_never_raised (p : Particle) :
    effectiveMinOccurs p ≤ p.minOccurs ∧
    (effectiveMinOccurs p = 0 ∨ effectiveMinOccurs p = p.minOccurs) ∧
    (∀ i mn mx, p = Particle.leaf i mn mx → effectiveMinOccurs p = mn) := by
  cases p with
  | leaf i mn mx =>
    refine ⟨Nat.le_refl _, Or.inr rfl, ?_⟩
    intro i2 mn2 mx2 h
    cases h
    rfl
  | group i m mn mx cs =>
    refine ⟨?_, ?_, ?_⟩
    · unfold effectiveMinOccurs
      split_ifs <;> simp [Particle.minOccurs]
    · unfold effectiveMinOccurs
      split_ifs <;> simp [Particle.minOccurs]
    · intro i2 mn2 mx2 h
      exact absurd h (by simp)

theorem c10_witness :
    effectiveMinOccurs (.leaf 0 2 none) = 2 :=
  (c10_effective_min_never_raised (.leaf 0 2 none)).2.2 0 2 none rfl

/-- Claim C4: a `sequence`/`all` group with nonzero finite `max_occurs` and
at least two iterated children that are effective (nonzero effective max)
and not emptiable (nonzero effective min) has
`effective_max_occurs = max_occurs`, with no scaling by the children
maxima. -/
theorem c4_effective_max_two_not_emptiable (i : Nat) (m : ModelKind)
    (mn mb : Nat) (cs : List Particle)
    (hm : m ≠ .choice) (hmb : mb ≠ 0)
    (h2 : 2 ≤ (((effPairs m cs).filter (fun pr => pr.2 ≠ some 0)).filter
                 (fun pr => effectiveMinOccurs pr.1 ≠ 0)).length) :
    effectiveMaxOccurs (.group i m mn (some mb) cs) = some mb := by
  have hcs : cs.isEmpty = false := by
    cases hc : cs with
    | nil =>
      subst hc
      simp [effPairs] at h2
    | cons a t => rfl
  have hlen : 2 ≤ ((effPairs m cs).filter (fun pr => pr.2 ≠ some 0)).length :=
    le_trans h2 (List.length_filter_le _ _)
  have hei : ((effPairs m cs).filter (fun pr => pr.2 ≠ some 0)).isEmpty = false :=
    isEmpty_false_of_length_pos (by omega)
  have hnee : (((effPairs m cs).filter (fun pr => pr.2 ≠ some 0)).filter
      (fun pr => effectiveMinOccurs pr.1 ≠ 0)).isEmpty = false :=
    isEmpty_false_of_length_pos (by omega)
  have h1lt : 1 < (((effPairs m cs).filter (fun pr => pr.2 ≠ some 0)).filter
      (fun pr => effectiveMinOccurs pr.1 ≠ 0)).length := by omega
  unfold effectiveMaxOccurs
  simp only [ne_eq, decide_not] at hei hnee h1lt ⊢
  simp [hcs, hei, hnee, hm, hmb, h1lt, -List.filter_filter]

theorem c4_witness :
    effectiveMaxOccurs (.group 0 .sequence 1 (some 1)
      [.leaf 1 1 (some 3), .leaf 2 2 (some 4)]) = some 1 :=
  c4_effective_max_two_not_emptiable 0 .sequence 1 1
    [.leaf 1 1 (some 3), .leaf 2 2 (some 4)]
    (by decide) (by decide) (by decide)

lemma chainMin_eq (chain : List Particle) : ∀ acc : Nat,
    chainMin acc chain =
      if chain.any isMultiChoice then 0
      else acc * (chain.map Particle.minOccurs).prod := by
  induction chain with
  | nil => intro acc; simp [chainMin]
  | cons g rest ih =>
    intro acc
    by_cases hg : isMultiChoice g
    · simp [chainMin, hg]
    · simp only [chainMin, hg, if_false, Bool.false_eq_true]
      rw [ih]
      simp [hg, Nat.mul_assoc]

/-- Claim C5: for a particle that is a member of the tree (its ancestor
chain being `chain`), `overall_min_occurs` is the particle `min_occurs`
multiplied by every ancestor `min_occurs`, except that it is `0` whenever
some ancestor in the chain is a `choice` group with more than one child. -/
theorem c5_overall_min_occurs (root item : Particle) (chain : List Particle)
    (hmem : getSubgroups root item.pid = .ok chain) :
    overallMinOccurs root item =
      .ok (if chain.any isMultiChoice then 0
           else item.minOccurs * (chain.map Particle.minOccurs).prod) := by
  unfold overallMinOccurs
  rw [hmem]
  show Except.ok (chainMin item.minOccurs chain) = _
  rw [chainMin_eq]

theorem c5_witness :
    overallMinOccurs
      (.group 0 .sequence 2 (some 2) [.group 1 .sequence 3 (some 3) [.leaf 3 1 (some 1)]])
      (.leaf 3 1 (some 1)) = .ok 6 :=
  (c5_overall_min_occurs
      (.group 0 .sequence 2 (some 2) [.group 1 .sequence 3 (some 3) [.leaf 3 1 (some 1)]])
      (.leaf 3 1 (some 1))
      [.group 0 .sequence 2 (some 2) [.group 1 .sequence 3 (some 3) [.leaf 3 1 (some 1)]],
       .group 1 .sequence 3 (some 3) [.leaf 3 1 (some 1)]]
      rfl).trans rfl

lemma le_natMax_left (a b : Nat) : a ≤ Nat.max a b := Nat.le_max_left a b

lemma le_natMax_right (a b : Nat) : b ≤ Nat.max a b := Nat.le_max_right a b

/-- If the target id occurs nowhere strictly below the current group and the
stack length plus the remaining group-nesting depth stays within the limit,
the walk of `get_subgroups` exhausts the children without finding the target
and without tripping the depth guard. -/
lemma findInList_eq_notFound (tid : Nat) (anc : List Particle) (g : Particle)
    (cs : List Particle)
    (habs : tid ∉ (subparticlesList cs).map Particle.pid)
    (hd : anc.length + gdepthList cs ≤ MAX_MODEL_DEPTH + 1) :
    findInList tid anc g cs = .notFound := by
  revert habs hd
  induction tid, anc, g, cs using findInList.induct with
  | case1 tid anc g =>
    intro habs hd
    rfl
  | case2 anc g c rest =>
    intro habs hd
    simp [subparticlesList] at habs
  | case3 tid anc g rest i mn mx h ih =>
    intro habs hd
    simp only [subparticlesList, subparticles, List.map_cons, List.map_append,
      List.mem_cons, List.mem_append, not_or, List.nil_append] at habs
    simp only [gdepthList, gdepth] at hd
    have hmr := le_natMax_right 0 (gdepthList rest)
    simp only [findInList]
    rw [if_neg h]
    exact ih habs.2 (by omega)
  | case4 tid anc g rest i m mn mx ccs h hlt =>
    intro habs hd
    simp only [gdepthList, gdepth] at hd
    have hml := le_natMax_left (1 + gdepthList ccs) (gdepthList rest)
    omega
  | case5 tid anc g rest i m mn mx ccs hnlt hnf h ih2 ih1 =>
    intro habs hd
    simp only [subparticlesList, subparticles, List.map_cons, List.map_append,
      List.mem_cons, List.mem_append, not_or] at habs
    simp only [gdepthList, gdepth] at hd
    have hml := le_natMax_left (1 + gdepthList ccs) (gdepthList rest)
    have hmr := le_natMax_right (1 + gdepthList ccs) (gdepthList rest)
    have hlen : (anc ++ [g]).length = anc.length + 1 := by
      simp
    have hd2 : (anc ++ [g]).length + gdepthList ccs ≤ MAX_MODEL_DEPTH + 1 := by
      omega
    simp only [findInList]
    rw [if_neg h, if_neg hnlt, ih2 habs.2.1 hd2]
    show findInList tid anc g rest = SearchOutcome.notFound
    exact ih1 habs.2.2 (by omega)
  | case6 tid anc g rest i m mn mx ccs hnlt h hne ih2 =>
    intro habs hd
    simp only [subparticlesList, subparticles, List.map_cons, List.map_append,
      List.mem_cons, List.mem_append, not_or] at habs
    simp only [gdepthList, gdepth] at hd
    have hml := le_natMax_left (1 + gdepthList ccs) (gdepthList rest)
    have hlen : (anc ++ [g]).length = anc.length + 1 := by
      simp
    have hd2 : (anc ++ [g]).length + gdepthList ccs ≤ MAX_MODEL_DEPTH + 1 := by
      omega
    exact absurd (ih2 habs.2.1 hd2) hne

/-- Claim C6: on a tree whose group-nesting depth is within the configured
maximum, `get_subgroups` called with a target that occurs nowhere in the
tree always fails with the membership error, never with the depth-exceeded
error. -/
theorem c6_absent_target_membership_error (root : Particle) (tid : Nat)
    (hdepth : gdepth root ≤ MAX_MODEL_DEPTH)
    (habs : tid ∉ (subparticles root).map Particle.pid) :
    getSubgroups root tid = .error .notInGroup := by
  cases root with
  | leaf i mn mx => rfl
  | group i m mn mx cs =>
    have habs2 : tid ∉ (subparticlesList cs).map Particle.pid := habs
    have hd2 : ([] : List Particle).length + gdepthList cs ≤ MAX_MODEL_DEPTH + 1 := by
      simp only [gdepth] at hdepth
      simp only [List.length_nil]
      omega
    show (match findInList tid [] (.group i m mn mx cs) cs with
      | .found chain => Except.ok chain
      | .notFound => Except.error ModelError.notInGroup
      | .depthExceeded => Except.error ModelError.depthExceeded) =
        Except.error ModelError.notInGroup
    rw [findInList_eq_notFound tid [] (.group i m mn mx cs) cs habs2 hd2]

theorem c6_witness :
    getSubgroups (.group 0 .sequence 1 (some 1) [.leaf 1 1 (some 1)]) 99 =
      .error .notInGroup :=
  c6_absent_target_membership_error
    (.group 0 .sequence 1 (some 1) [.leaf 1 1 (some 1)]) 99
    (by decide) (by decide)

/-- Claim C9: membership in `get_subgroups` is decided by object identity,
not structural equality — a particle `p` that is structurally equal
(`erase p = erase q`) to a node `q` of the tree but is a different object
(its id occurring nowhere in the tree) makes `get_subgroups` fail with the
membership error instead of returning the ancestor chain of `q`. -/
theorem c9_identity_not_structural_equality (root p q : Particle)
    (hq : q ∈ subparticles root) (hs : erase p = erase q)
    (hid : p.pid ∉ (subparticles root).map Particle.pid)
    (hdepth : gdepth root ≤ MAX_MODEL_DEPTH) :
    getSubgroups root p.pid = .error .notInGroup := by
  cases root with
  | leaf i mn mx => rfl
  | group i m mn mx cs =>
    have habs2 : p.pid ∉ (subparticlesList cs).map Particle.pid := hid
    have hd2 : ([] : List Particle).length + gdepthList cs ≤ MAX_MODEL_DEPTH + 1 := by
      simp only [gdepth] at hdepth
      simp only [List.length_nil]
      omega
    show (match findInList p.pid [] (.group i m mn mx cs) cs with
      | .found chain => Except.ok chain
      | .notFound => Except.error ModelError.notInGroup
      | .depthExceeded => Except.error ModelError.depthExceeded) =
        Except.error ModelError.notInGroup
    rw [findInList_eq_notFound p.pid [] (.group i m mn mx cs) cs habs2 hd2]

theorem c9_witness :
    getSubgroups (.group 0 .sequence 1 (some 1) [.leaf 1 2 (some 3)])
      (Particle.pid (.leaf 5 2 (some 3))) = .error .notInGroup :=
  c9_identity_not_structural_equality
    (.group 0 .sequence 1 (some 1) [.leaf 1 2 (some 3)])
    (.leaf 5 2 (some 3)) (.leaf 1 2 (some 3))
    (by exact List.mem_cons_self _ _) rfl (by decide) (by decide)

end XsdParticles
